import Mathlib

/-!
# face_door: the bounded hand-off queue and the stages built on it

A shallow embedding of `include/safe_queue.h`, `include/config.h`,
`src/log_util.cpp` and the stage loops of `src/door_core.cpp`.

Every `SafeQueue` member function takes the queue's mutex for its whole body, so
each call acts on the queue state as one atomic step; a `pop` whose wait
predicate is false releases the mutex and sleeps, leaving the state as it was.
The embedding therefore describes a queue by its state and each member function
by its effect on that state.
-/

namespace FaceDoor

/-! ## include/safe_queue.h -/

/-- The private members of `SafeQueue<T>`: the `std::queue` (head of the list is
the front), the capacity and the stop flag. The mutex and the condition variable
carry no data. -/
structure SafeQueue (α : Type) where
  queue_ : List α
  max_size_ : Nat
  stop_flag_ : Bool
deriving DecidableEq, Repr

/-- The constructor `SafeQueue(size_t max_size)`: an empty queue, not stopped. -/
def SafeQueue.new {α : Type} (max_size : Nat) : SafeQueue α :=
  { queue_ := [], max_size_ := max_size, stop_flag_ := false }

/-- The value the constructor takes for `max_size` when none is given. -/
def SafeQueue.default_max_size : Nat := 10

/-- The member `bool push(const T& item)`: the returned flag and the state after
the call. -/
def SafeQueue.push {α : Type} (q : SafeQueue α) (item : α) : Bool × SafeQueue α :=
  if q.queue_.length ≥ q.max_size_ then (false, q)
  else (true, { q with queue_ := q.queue_ ++ [item] })

/-- What a call of `bool pop(T& item)` does: it returns, with the flag, the
content of the reference argument and the queue state after the call, or it
stays in `cond_.wait`. -/
inductive PopResult (α : Type) where
  | returned (ok : Bool) (item : α) (q : SafeQueue α)
  | waiting
deriving DecidableEq, Repr

/-- The member `bool pop(T& item)`; `item` is the content of the reference
argument before the call. The last branch (`front()` of an empty queue) is not
reachable: the two tests before it leave only a non-empty queue. -/
def SafeQueue.pop {α : Type} (q : SafeQueue α) (item : α) : PopResult α :=
  if !q.queue_.isEmpty || q.stop_flag_ then
    if q.stop_flag_ && q.queue_.isEmpty then PopResult.returned false item q
    else
      match q.queue_ with
      | x :: rest => PopResult.returned true x { q with queue_ := rest }
      | [] => PopResult.returned true item q
  else PopResult.waiting

/-- The member `void stop()`. -/
def SafeQueue.stop {α : Type} (q : SafeQueue α) : SafeQueue α :=
  { q with stop_flag_ := true }

/-- Back-to-back calls of `push`, one per item, with nothing else in between:
the flags returned, in call order, and the final state. -/
def pushAll {α : Type} : SafeQueue α → List α → List Bool × SafeQueue α
  | q, [] => ([], q)
  | q, x :: xs =>
    let r := q.push x
    let rest := pushAll r.2 xs
    (r.1 :: rest.1, rest.2)

/-- What a caller sees of a `pop` call: an item, the answer "no item" (the call
returned false), or nothing yet because the call is still waiting. -/
inductive Outcome (α : Type) where
  | item (x : α)
  | closed
  | waits
deriving DecidableEq, Repr

/-- The caller's view of a `PopResult`. -/
def PopResult.outcome {α : Type} : PopResult α → Outcome α
  | PopResult.returned true x _ => Outcome.item x
  | PopResult.returned false _ _ => Outcome.closed
  | PopResult.waiting => Outcome.waits

/-- A caller issuing `n` calls of `pop` in a row on the same variable `item`, as
the stage loops do, with no other call on the queue in between. A call that
waits is the last one: the caller is asleep inside it. -/
def popN {α : Type} : Nat → SafeQueue α → α → List (PopResult α)
  | 0, _, _ => []
  | n + 1, q, item =>
    match q.pop item with
    | PopResult.returned ok item1 q1 => PopResult.returned ok item1 q1 :: popN n q1 item1
    | PopResult.waiting => [PopResult.waiting]

/-- One call on a queue. `pop` carries the content of its reference argument. -/
inductive Op (α : Type) where
  | push (item : α)
  | pop (item : α)
  | stop
deriving DecidableEq, Repr

/-- A queue together with the record of a run: the items whose `push` returned
true and the items handed out by the `pop` calls that returned true, both in call
order. -/
structure Trace (α : Type) where
  q : SafeQueue α
  pushed : List α
  popped : List α
deriving DecidableEq, Repr

/-- The record of a freshly constructed queue of capacity `C`. -/
def Trace.start {α : Type} (C : Nat) : Trace α :=
  { q := SafeQueue.new C, pushed := [], popped := [] }

/-- One call, taken atomically under the queue's mutex. A `pop` that finds its
wait predicate false changes nothing: the caller sleeps, and its wake-up appears
later in the run as a `pop` of its own. -/
def Trace.step {α : Type} (t : Trace α) : Op α → Trace α
  | Op.push x =>
    let r := t.q.push x
    { q := r.2, pushed := if r.1 then t.pushed ++ [x] else t.pushed, popped := t.popped }
  | Op.pop item =>
    match t.q.pop item with
    | PopResult.returned true x q1 => { q := q1, pushed := t.pushed, popped := t.popped ++ [x] }
    | PopResult.returned false _ q1 => { q := q1, pushed := t.pushed, popped := t.popped }
    | PopResult.waiting => t
  | Op.stop => { q := t.q.stop, pushed := t.pushed, popped := t.popped }

/-- A finite run of calls. -/
def Trace.run {α : Type} (t : Trace α) (ops : List (Op α)) : Trace α :=
  ops.foldl Trace.step t

/-! ## Library types used by the stages -/

/-- Stand-in for `cv::Mat`: the dimensions and the pixel data. -/
structure Mat where
  rows : Nat
  cols : Nat
  data : List Nat
deriving DecidableEq, Repr

/-- The default-constructed `Mat()`. -/
def Mat.default : Mat := { rows := 0, cols := 0, data := [] }

/-- The member `Mat::empty()`: no element. -/
def Mat.empty (m : Mat) : Bool := m.rows == 0 || m.cols == 0

/-- Stand-in for `cv::Rect`. -/
structure Rect where
  x : Int
  y : Int
  width : Int
  height : Int
deriving DecidableEq, Repr

/-- The default-constructed `Rect()`. -/
def Rect.default : Rect := { x := 0, y := 0, width := 0, height := 0 }

/-- The member `Rect::empty()`. -/
def Rect.empty (r : Rect) : Bool := decide (r.width ≤ 0) || decide (r.height ≤ 0)

/-- The values a C++ `double` can hold: every finite double is a rational, and
there are the two infinities and the NaNs. No arithmetic is done on scores, they
are only compared, and comparison of doubles is exact. -/
inductive Double where
  | finite (v : ℚ)
  | posInf
  | negInf
  | nan
deriving DecidableEq

/-- The operator `<` on `double`: false as soon as one side is a NaN. -/
def Double.lt : Double → Double → Bool
  | Double.finite a, Double.finite b => decide (a < b)
  | Double.finite _, Double.posInf => true
  | Double.negInf, Double.finite _ => true
  | Double.negInf, Double.posInf => true
  | _, _ => false

/-- The cast `(int)conf` to the 32-bit `int`: truncation toward zero when the
truncated value fits. Otherwise, and for an infinity or a NaN, the cast is
undefined in C++; it is given the value -2147483648 here, what the x86-64
conversion instruction delivers. The value only shows in the text of a log
line. -/
def Double.castInt : Double → Int
  | Double.finite v =>
    if -2147483648 ≤ v.num.tdiv v.den ∧ v.num.tdiv v.den ≤ 2147483647 then v.num.tdiv v.den
    else -2147483648
  | _ => -2147483648

/-! ## include/config.h and src/log_util.cpp -/

def FRAME_QUEUE_SIZE : Nat := 3
def FACE_QUEUE_SIZE : Nat := 3
def RECOGNIZE_THRESHOLD : Double := Double.finite 50

/-- The capacity given to `g_log_queue` in `log_util.cpp`. -/
def LOG_QUEUE_SIZE : Nat := 50

/-! ## src/door_core.cpp -/

inductive QueueId where
  | frame_queue_
  | face_queue_
  | g_log_queue
deriving DecidableEq, Repr

inductive ThreadId where
  | cap_thread_
  | detect_thread_
  | rec_thread_
  | log_thread_
deriving DecidableEq, Repr

/-- The calls the program makes that are visible from outside one stage: the
actuators, the window, the console, and the calls by which the orchestrator
cancels a queue or joins a thread. -/
inductive Call where
  | openDoorDelay
  | alarmBeep
  | imshow (frame : Mat) (overlay : Option (Rect × Bool))
  | cout (msg : String)
  | stop (q : QueueId)
  | join (t : ThreadId)
  | destroyAllWindows
deriving DecidableEq, Repr

/-- The state the stages and the orchestrator share: the run flag, the three
queues, the two overlay atomics, which threads are joinable, and the calls made
so far, oldest first. -/
structure DoorCore where
  is_running_ : Bool
  frame_queue_ : SafeQueue Mat
  face_queue_ : SafeQueue Mat
  g_log_queue : SafeQueue String
  g_face_rect : Rect
  g_recognize_success : Bool
  joinable : ThreadId → Bool
  calls : List Call

/-- The function `postLog`: a push on the log queue whose result is ignored. -/
def postLog (d : DoorCore) (msg : String) : DoorCore :=
  { d with g_log_queue := (d.g_log_queue.push msg).2 }

/-- Record a call to a collaborator. -/
def DoorCore.call (d : DoorCore) (c : Call) : DoorCore :=
  { d with calls := d.calls ++ [c] }

/-- The state after the constructor `DoorCore::DoorCore()`: the member
initialisers, the global `g_log_queue(50)`, and the constructor body. -/
def DoorCore.init : DoorCore :=
  postLog
    { is_running_ := false
      frame_queue_ := SafeQueue.new FRAME_QUEUE_SIZE
      face_queue_ := SafeQueue.new FACE_QUEUE_SIZE
      g_log_queue := SafeQueue.new LOG_QUEUE_SIZE
      g_face_rect := Rect.default
      g_recognize_success := false
      joinable := fun _ => false
      calls := [] }
    "[系统] 模型加载成功，门禁已就绪"

/-- What one pass through the body of a `while (is_running_)` loop does: it
reaches the end of the body or a `continue` (the loop test comes next), it leaves
the loop by `break`, or it stays inside a blocking call. -/
inductive Pass (σ : Type) where
  | next (s : σ)
  | exit (s : σ)
  | waiting

/-- Lines 255-263 of `recognizeThread`: the decision on the recognizer's result
`(label, conf)` and what follows from it. -/
def recognizeDecide (d : DoorCore) (label : Int) (conf : Double) : DoorCore :=
  if label != -1 && conf.lt RECOGNIZE_THRESHOLD then
    let d := postLog d ("[成功] ID=" ++ toString label ++ " 置信度=" ++ toString conf.castInt)
    let d := d.call Call.openDoorDelay
    { d with g_recognize_success := true }
  else
    let d := postLog d ("[失败] 未知人脸，置信度=" ++ toString conf.castInt)
    let d := d.call Call.alarmBeep
    { d with g_recognize_success := false }

/-- One pass through the loop body of `recognizeThread`; `predict` is the
recognizer `g_lbph->predict`, `face` the content of the local `face` before the
pass. The state after the pass comes with the new content of `face`. -/
def recognizeCycle (predict : Mat → Int × Double) (d : DoorCore) (face : Mat) :
    Pass (DoorCore × Mat) :=
  match d.face_queue_.pop face with
  | PopResult.waiting => Pass.waiting
  | PopResult.returned false face1 q1 => Pass.next ({ d with face_queue_ := q1 }, face1)
  | PopResult.returned true face1 q1 =>
    let r := predict face1
    Pass.next (recognizeDecide { d with face_queue_ := q1 } r.1 r.2, face1)

/-- One pass through the render loop of `startSystem` (lines 105-136); `key` is
what `waitKey(1)` returns in this pass, `latest_frame` the content of the local
before the pass. -/
def renderIteration (key : Int) (d : DoorCore) (latest_frame : Mat) :
    Pass (DoorCore × Mat) :=
  match d.frame_queue_.pop latest_frame with
  | PopResult.waiting => Pass.waiting
  | PopResult.returned _ latest1 q1 =>
    let d := { d with frame_queue_ := q1 }
    let d :=
      if !latest1.empty then
        let face_rect := d.g_face_rect
        if !face_rect.empty then
          d.call (Call.imshow latest1 (some (face_rect, d.g_recognize_success)))
        else d.call (Call.imshow latest1 none)
      else d
    if key == 27 then Pass.exit ({ d with is_running_ := false }, latest1)
    else Pass.next (d, latest1)

/-- The call `q.stop()` made by the orchestrator on one of the three queues. -/
def DoorCore.stopQueue (d : DoorCore) : QueueId → DoorCore
  | QueueId.frame_queue_ =>
    { d with frame_queue_ := d.frame_queue_.stop, calls := d.calls ++ [Call.stop QueueId.frame_queue_] }
  | QueueId.face_queue_ =>
    { d with face_queue_ := d.face_queue_.stop, calls := d.calls ++ [Call.stop QueueId.face_queue_] }
  | QueueId.g_log_queue =>
    { d with g_log_queue := d.g_log_queue.stop, calls := d.calls ++ [Call.stop QueueId.g_log_queue] }

/-- The statement `if (t.joinable()) t.join();`. The call is recorded and taken
to return; in the program `join` returns only once the thread has left its loop,
which a thread asleep in `pop` on a queue that is not stopped never does. -/
def DoorCore.joinIfJoinable (d : DoorCore) (t : ThreadId) : DoorCore :=
  if d.joinable t then
    { d with joinable := fun u => if u = t then false else d.joinable u,
             calls := d.calls ++ [Call.join t] }
  else d

/-- Lines 89-95 of `startSystem`: the run flag is set and the four threads are
started. -/
def DoorCore.startSystemSpawn (d : DoorCore) : DoorCore :=
  { d with is_running_ := true, joinable := fun _ => true }

/-- The way out of `startSystem` once the render loop is left (lines 139-145). -/
def DoorCore.startSystemJoin (d : DoorCore) : DoorCore :=
  let d := d.joinIfJoinable ThreadId.cap_thread_
  let d := d.joinIfJoinable ThreadId.detect_thread_
  let d := d.joinIfJoinable ThreadId.rec_thread_
  let d := d.joinIfJoinable ThreadId.log_thread_
  d.call Call.destroyAllWindows

/-- The user-cancellation exit of `startSystem`: the pass of the render loop in
which `waitKey(1)` returns 27 clears the run flag and breaks (lines 133-136), and
the function goes on to lines 139-145. -/
def DoorCore.startSystemExit (d : DoorCore) : DoorCore :=
  DoorCore.startSystemJoin { d with is_running_ := false }

/-- The destructor `DoorCore::~DoorCore()`. -/
def DoorCore.destructor (d : DoorCore) : DoorCore :=
  let d := { d with is_running_ := false }
  let d := d.stopQueue QueueId.frame_queue_
  let d := d.stopQueue QueueId.face_queue_
  let d := d.stopQueue QueueId.g_log_queue
  let d := d.joinIfJoinable ThreadId.cap_thread_
  let d := d.joinIfJoinable ThreadId.detect_thread_
  let d := d.joinIfJoinable ThreadId.rec_thread_
  let d := d.joinIfJoinable ThreadId.log_thread_
  d.call Call.destroyAllWindows

/-- Whether a call is a join. -/
def Call.isJoin : Call → Bool
  | Call.join _ => true
  | _ => false

/-- The calls made before the first join. -/
def beforeFirstJoin (calls : List Call) : List Call :=
  calls.takeWhile (fun c => !c.isJoin)

/-- Whether a sequence of calls cancels all three queues before it first joins a
thread. A sequence that joins nothing passes. -/
def cancelsBeforeJoining (calls : List Call) : Bool :=
  !calls.any Call.isJoin ||
    (beforeFirstJoin calls).contains (Call.stop QueueId.frame_queue_) &&
    (beforeFirstJoin calls).contains (Call.stop QueueId.face_queue_) &&
    (beforeFirstJoin calls).contains (Call.stop QueueId.g_log_queue)

/-- A one-pixel face region, and the running system with that region waiting in
the face queue. -/
def sampleFace : Mat := { rows := 1, cols := 1, data := [0] }

def sampleRunning : DoorCore :=
  { DoorCore.init.startSystemSpawn with
    face_queue_ := (DoorCore.init.face_queue_.push sampleFace).2 }

/-- The image-processing calls of `detectThread`, all outside the repository:
`toGray` is `cvtColor(frame, gray, COLOR_BGR2GRAY)` followed by
`equalizeHist(gray, gray)`, `detectMultiScale` is the cascade's detection on the
grey frame (it overwrites `faces` on each call), and `roi` is the crop
`gray(rect)`. -/
structure Detector where
  toGray : Mat → Mat
  detectMultiScale : Mat → List Rect
  roi : Mat → Rect → Mat

/-- One pass through the loop body of `detectThread` (lines 214-227); `frame` is
the content of the local `frame` before the pass. -/
def detectCycle (det : Detector) (d : DoorCore) (frame : Mat) : Pass (DoorCore × Mat) :=
  match d.frame_queue_.pop frame with
  | PopResult.waiting => Pass.waiting
  | PopResult.returned false frame1 q1 => Pass.next ({ d with frame_queue_ := q1 }, frame1)
  | PopResult.returned true frame1 q1 =>
    let d := { d with frame_queue_ := q1 }
    let gray := det.toGray frame1
    let faces := det.detectMultiScale gray
    if !faces.isEmpty then
      let d := { d with face_queue_ := (d.face_queue_.push (det.roi gray (faces.getD 0 Rect.default))).2 }
      Pass.next ({ d with g_face_rect := faces.getD 0 Rect.default }, frame1)
    else
      Pass.next ({ d with g_face_rect := Rect.default }, frame1)

/-- The two overlay atomics. -/
structure Shared where
  g_face_rect : Rect
  g_recognize_success : Bool
deriving DecidableEq, Repr

/-- The overlay atomics of a program state. -/
def DoorCore.shared (d : DoorCore) : Shared :=
  { g_face_rect := d.g_face_rect, g_recognize_success := d.g_recognize_success }

/-- The stores the stages make: `g_face_rect = ...` in `detectThread` (lines 224
and 226) and `g_recognize_success = ...` in `recognizeThread` (lines 258 and
262). -/
inductive Store where
  | face_rect (r : Rect)
  | recognize_success (b : Bool)
deriving DecidableEq, Repr

/-- The effect of one store. -/
def Shared.store (s : Shared) : Store → Shared
  | Store.face_rect r => { s with g_face_rect := r }
  | Store.recognize_success b => { s with g_recognize_success := b }

/-- The effect of stores completing one after the other. -/
def Shared.stores (s : Shared) (ws : List Store) : Shared :=
  ws.foldl Shared.store s

/-- What one pass of the render loop loads for its overlay: `g_face_rect` at line
116 and, when that rectangle is not empty, `g_recognize_success` at line 120 (the
colour) and again at line 124 (the text). `s` is the state at the first load;
`mid1` are the stores of the stage threads that complete between the first and
the second load, `mid2` those between the second and the third. -/
def renderLoads (s : Shared) (mid1 mid2 : List Store) : Rect × Option (Bool × Bool) :=
  let face_rect := s.g_face_rect
  if !face_rect.empty then
    let s1 := s.stores mid1
    let s2 := s1.stores mid2
    (face_rect, some (s1.g_recognize_success, s2.g_recognize_success))
  else (face_rect, none)

/-- The pairs `{region, verdict}` the overlay state holds over time: the one it
starts with and the one after each store. -/
def pairsHeld (s : Shared) : List Store → List (Rect × Bool)
  | [] => [(s.g_face_rect, s.g_recognize_success)]
  | w :: ws => (s.g_face_rect, s.g_recognize_success) :: pairsHeld (s.store w) ws

/-- The value of the latest store to `g_face_rect` among `ws`, or `init` when
there is none. -/
def latestRect (init : Rect) (ws : List Store) : Rect :=
  ((ws.filterMap (fun w => match w with
    | Store.face_rect r => some r
    | Store.recognize_success _ => none)).getLast?).getD init

/-- The value of the latest store to `g_recognize_success` among `ws`, or `init`
when there is none. -/
def latestSuccess (init : Bool) (ws : List Store) : Bool :=
  ((ws.filterMap (fun w => match w with
    | Store.face_rect _ => none
    | Store.recognize_success b => some b)).getLast?).getD init

/-- Two face rectangles, a frame, and a detector that finds the first rectangle
then the second in that frame. -/
def rectA : Rect := { x := 10, y := 10, width := 60, height := 60 }

def rectB : Rect := { x := 200, y := 40, width := 80, height := 80 }

def sampleFrame : Mat := { rows := 2, cols := 2, data := [1, 2, 3, 4] }

def sampleDetector : Detector :=
  { toGray := fun m => m
    detectMultiScale := fun m => if m.empty then [] else [rectA, rectB]
    roi := fun _ r => { rows := r.height.toNat, cols := r.width.toNat, data := [] } }

/-- The running system with one frame waiting in the frame queue. -/
def sampleWithFrame : DoorCore :=
  { DoorCore.init.startSystemSpawn with
    frame_queue_ := (DoorCore.init.frame_queue_.push sampleFrame).2 }

/-! ### The program as its threads run it

The main thread runs its statements in program order; the four stage threads and
the render loop run theirs in between, in any order. The stage threads and the
render loop act on the shared state only through the queue calls, the stores to
the two overlay atomics and the calls to collaborators listed in `ThreadStep`;
the run flag and the stop flags are written by the main thread alone, after the
flag is set on line 89. -/

/-- The queue state after a `pop` call: the one it returned with, or the one it
found when the caller is still waiting. -/
def PopResult.state {α : Type} (r : PopResult α) (q : SafeQueue α) : SafeQueue α :=
  match r with
  | PopResult.returned _ _ q1 => q1
  | PopResult.waiting => q

/-- One atomic step of a stage thread or of the body of the render loop. -/
inductive ThreadStep where
  | pushFrame (frame : Mat)
  | popFrame (item : Mat)
  | pushFace (face : Mat)
  | popFace (item : Mat)
  | postLog (msg : String)
  | popLog (item : String)
  | store (w : Store)
  | openDoorDelay
  | alarmBeep
  | imshow (frame : Mat) (overlay : Option (Rect × Bool))
  | cout (msg : String)
deriving DecidableEq, Repr

/-- The effect of a `ThreadStep`: `frame_queue_.push` (line 183),
`frame_queue_.pop` (lines 105 and 214), `face_queue_.push` (line 223),
`face_queue_.pop` (line 251), `postLog`, `g_log_queue.pop` (line 279), the stores
of lines 224, 226, 258 and 262, and the collaborator calls. -/
def DoorCore.threadStep (d : DoorCore) : ThreadStep → DoorCore
  | ThreadStep.pushFrame frame => { d with frame_queue_ := (d.frame_queue_.push frame).2 }
  | ThreadStep.popFrame item =>
    { d with frame_queue_ := (d.frame_queue_.pop item).state d.frame_queue_ }
  | ThreadStep.pushFace face => { d with face_queue_ := (d.face_queue_.push face).2 }
  | ThreadStep.popFace item =>
    { d with face_queue_ := (d.face_queue_.pop item).state d.face_queue_ }
  | ThreadStep.postLog msg => postLog d msg
  | ThreadStep.popLog item =>
    { d with g_log_queue := (d.g_log_queue.pop item).state d.g_log_queue }
  | ThreadStep.store (Store.face_rect r) => { d with g_face_rect := r }
  | ThreadStep.store (Store.recognize_success b) => { d with g_recognize_success := b }
  | ThreadStep.openDoorDelay => d.call Call.openDoorDelay
  | ThreadStep.alarmBeep => d.call Call.alarmBeep
  | ThreadStep.imshow frame overlay => d.call (Call.imshow frame overlay)
  | ThreadStep.cout msg => d.call (Call.cout msg)

/-- The statements of the main thread from the pass of the render loop in which
`waitKey(1)` returns 27 to the end of `main`. -/
inductive MainStep where
  | escape
  | join (t : ThreadId)
  | destroyAllWindows
  | clearRun
  | stop (q : QueueId)
deriving DecidableEq, Repr

/-- The effect of a `MainStep`: `escape` is line 134 of `startSystem`, `clearRun`
line 61 of the destructor, `stop` lines 62-64. -/
def DoorCore.mainStep (d : DoorCore) : MainStep → DoorCore
  | MainStep.escape => { d with is_running_ := false }
  | MainStep.join t => d.joinIfJoinable t
  | MainStep.destroyAllWindows => d.call Call.destroyAllWindows
  | MainStep.clearRun => { d with is_running_ := false }
  | MainStep.stop q => d.stopQueue q

/-- The main thread after the threads are started: lines 134-145 of
`startSystem`, then the destructor that `main` runs on return. -/
def mainScript : List MainStep :=
  [MainStep.escape,
   MainStep.join ThreadId.cap_thread_, MainStep.join ThreadId.detect_thread_,
   MainStep.join ThreadId.rec_thread_, MainStep.join ThreadId.log_thread_,
   MainStep.destroyAllWindows,
   MainStep.clearRun,
   MainStep.stop QueueId.frame_queue_, MainStep.stop QueueId.face_queue_,
   MainStep.stop QueueId.g_log_queue,
   MainStep.join ThreadId.cap_thread_, MainStep.join ThreadId.detect_thread_,
   MainStep.join ThreadId.rec_thread_, MainStep.join ThreadId.log_thread_,
   MainStep.destroyAllWindows]

/-- The shared state together with what the main thread has still to run. -/
structure System where
  d : DoorCore
  main : List MainStep

/-- Whose step comes next. -/
inductive Turn where
  | main
  | thread (a : ThreadStep)
deriving DecidableEq, Repr

/-- One step of the program: the next statement of the main thread, or a step of
a stage thread or of the render loop. -/
def System.turn (s : System) : Turn → System
  | Turn.main =>
    match s.main with
    | [] => s
    | m :: rest => { d := s.d.mainStep m, main := rest }
  | Turn.thread a => { s with d := s.d.threadStep a }

/-- The program after `main` has constructed `door` and `startSystem` has set
the run flag and started the threads. -/
def System.start : System :=
  { d := DoorCore.init.startSystemSpawn, main := mainScript }

/-- A finite execution of the program. -/
def System.run (s : System) (turns : List Turn) : System :=
  turns.foldl System.turn s

/-- C1: `push(x)` returns false exactly when the current length is at least the
capacity, and then the state is unchanged; otherwise it returns true and the new
contents are the old contents with `x` appended at the tail, capacity and stop
flag untouched. -/
theorem push_full_or_append {α : Type} (q : SafeQueue α) (x : α) :
    ((q.push x).1 = false ↔ q.queue_.length ≥ q.max_size_) ∧
    ((q.push x).1 = false ∧ (q.push x).2 = q ∨
      (q.push x).1 = true ∧ (q.push x).2.queue_ = q.queue_ ++ [x] ∧
        (q.push x).2.max_size_ = q.max_size_ ∧
        (q.push x).2.stop_flag_ = q.stop_flag_) := by
  unfold SafeQueue.push
  by_cases h : q.queue_.length ≥ q.max_size_
  · simp [h]
  · simp [h]

/-- Back-to-back pushes onto any state: as many as still fit are accepted, the
rest are refused, and the accepted ones sit behind the old contents in order. -/
theorem pushAll_eq {α : Type} (xs : List α) (q : SafeQueue α) :
    pushAll q xs =
      (List.replicate (min (q.max_size_ - q.queue_.length) xs.length) true ++
        List.replicate (xs.length - (q.max_size_ - q.queue_.length)) false,
       { q with queue_ := q.queue_ ++ xs.take (q.max_size_ - q.queue_.length) }) := by
  induction xs generalizing q with
  | nil => simp [pushAll]
  | cons x xs ih =>
    by_cases h : q.queue_.length ≥ q.max_size_
    · have h0 : q.max_size_ - q.queue_.length = 0 := by omega
      have hp : q.push x = (false, q) := by simp [SafeQueue.push, h]
      simp only [pushAll, hp, ih q, h0]
      simp [List.replicate_succ]
    · have hp : q.push x = (true, { q with queue_ := q.queue_ ++ [x] }) := by
        simp [SafeQueue.push, h]
      obtain ⟨d, hd⟩ : ∃ d, q.max_size_ - q.queue_.length = d + 1 :=
        ⟨q.max_size_ - q.queue_.length - 1, by omega⟩
      have hd2 : q.max_size_ - (q.queue_.length + 1) = d := by omega
      simp only [pushAll, hp, ih, hd, List.length_append, List.length_singleton, hd2,
        List.length_cons, List.take_succ_cons]
      simp [List.replicate_succ, Nat.add_sub_add_right, Nat.add_min_add_right, hd2]

/-- C2: pushing `C + k` items back-to-back onto an empty queue of capacity `C`:
the first `C` pushes return true, the remaining `k` return false, and the queue
then holds exactly the first `C` items in their original order. -/
theorem pushAll_empty_keeps_first {α : Type} (C k : Nat) (xs : List α) (q : SafeQueue α)
    (hq : q.queue_ = []) (hC : q.max_size_ = C) (hlen : xs.length = C + k) :
    (pushAll q xs).1 = List.replicate C true ++ List.replicate k false ∧
    (pushAll q xs).2 = { q with queue_ := xs.take C } := by
  rw [pushAll_eq]
  simp [hq, hC, hlen]

/-- C2, at the frame queue: capacity 3 and five items leave items 1, 2, 3 and
drop items 4 and 5. -/
theorem pushAll_empty_keeps_first_witness :
    (SafeQueue.new FRAME_QUEUE_SIZE : SafeQueue Nat).queue_ = [] ∧
    (SafeQueue.new FRAME_QUEUE_SIZE : SafeQueue Nat).max_size_ = 3 ∧
    [1, 2, 3, 4, 5].length = 3 + 2 ∧
    (pushAll (SafeQueue.new FRAME_QUEUE_SIZE) [1, 2, 3, 4, 5]).1
      = [true, true, true, false, false] ∧
    (pushAll (SafeQueue.new FRAME_QUEUE_SIZE) [1, 2, 3, 4, 5]).2
      = { queue_ := [1, 2, 3], max_size_ := 3, stop_flag_ := false } :=
  ⟨rfl, rfl, rfl,
    pushAll_empty_keeps_first 3 2 [1, 2, 3, 4, 5] (SafeQueue.new FRAME_QUEUE_SIZE) rfl rfl rfl⟩

/-! ### pop -/

theorem pop_cons {α : Type} (x : α) (rest : List α) (C : Nat) (s : Bool) (item : α) :
    SafeQueue.pop { queue_ := x :: rest, max_size_ := C, stop_flag_ := s } item =
      PopResult.returned true x { queue_ := rest, max_size_ := C, stop_flag_ := s } := by
  simp [SafeQueue.pop]

theorem pop_nil_stopped {α : Type} (C : Nat) (item : α) :
    SafeQueue.pop { queue_ := [], max_size_ := C, stop_flag_ := true } item =
      PopResult.returned false item { queue_ := [], max_size_ := C, stop_flag_ := true } := by
  simp [SafeQueue.pop]

theorem pop_nil_running {α : Type} (C : Nat) (item : α) :
    SafeQueue.pop { queue_ := ([] : List α), max_size_ := C, stop_flag_ := false } item =
      PopResult.waiting := by
  simp [SafeQueue.pop]

/-- C5: the three outcomes of `pop`. A non-empty queue gives true with the head
item and loses exactly that item, stopped or not; an empty stopped queue gives
false and keeps its state (and the caller's variable); an empty queue that is not
stopped keeps the caller waiting. Hence `pop` returns false exactly when the
queue is both stopped and empty. -/
theorem pop_three_outcomes {α : Type} (q : SafeQueue α) (item : α) :
    (∀ x rest, q.queue_ = x :: rest →
      q.pop item = PopResult.returned true x { q with queue_ := rest }) ∧
    (q.queue_ = [] ∧ q.stop_flag_ = true → q.pop item = PopResult.returned false item q) ∧
    (q.queue_ = [] ∧ q.stop_flag_ = false → q.pop item = PopResult.waiting) ∧
    ((q.pop item).outcome = Outcome.closed ↔ q.stop_flag_ = true ∧ q.queue_ = []) := by
  obtain ⟨xs, C, s⟩ := q
  cases xs with
  | nil =>
    cases s
    · simp [pop_nil_running, PopResult.outcome]
    · simp [pop_nil_stopped, PopResult.outcome]
  | cons y ys =>
    simp only [pop_cons, PopResult.outcome]
    simp

/-! ### stop, then drain -/

theorem popN_drain {α : Type} (xs : List α) (C : Nat) (k : Nat) (item : α) :
    (popN (xs.length + k) { queue_ := xs, max_size_ := C, stop_flag_ := true } item).map
        PopResult.outcome
      = xs.map Outcome.item ++ List.replicate k Outcome.closed := by
  induction xs generalizing item with
  | nil =>
    induction k with
    | zero => simp [popN]
    | succ k ih =>
      simp only [List.length_nil, Nat.zero_add] at ih ⊢
      simp [popN, pop_nil_stopped, PopResult.outcome, ih, List.replicate_succ]
  | cons x xs ih =>
    have hl : (x :: xs).length + k = (xs.length + k) + 1 := by simp; omega
    rw [hl]
    simp [popN, pop_cons, PopResult.outcome, ih]

/-- C4: a queue holding `N` items on which `stop()` is called, with no further
push: the next `N` calls of `pop` return true and hand out the queued items in
queue order, and call `N + 1` and each of the `k - 1` calls after it, for every
`k`, return false with no item. None of the calls waits. -/
theorem stop_then_drain {α : Type} (q : SafeQueue α) (k : Nat) (item : α) :
    (popN (q.queue_.length + k) q.stop item).map PopResult.outcome
      = q.queue_.map Outcome.item ++ List.replicate k Outcome.closed := by
  obtain ⟨xs, C, s⟩ := q
  exact popN_drain xs C k item

/-! ### runs of calls -/

theorem step_pushed_eq {α : Type} (t : Trace α) (op : Op α)
    (h : t.pushed = t.popped ++ t.q.queue_) :
    (t.step op).pushed = (t.step op).popped ++ (t.step op).q.queue_ := by
  obtain ⟨⟨xs, C, s⟩, pu, po⟩ := t
  simp only at h
  cases op with
  | push x =>
    by_cases hc : xs.length ≥ C
    · simp [Trace.step, SafeQueue.push, hc, h]
    · simp [Trace.step, SafeQueue.push, hc, h]
  | pop item =>
    cases xs with
    | nil =>
      cases s
      · simp [Trace.step, pop_nil_running, h]
      · simp [Trace.step, pop_nil_stopped, h]
    | cons y ys => simp [Trace.step, pop_cons, h]
  | stop => simp [Trace.step, SafeQueue.stop, h]

theorem run_pushed_eq {α : Type} (ops : List (Op α)) (t : Trace α)
    (h : t.pushed = t.popped ++ t.q.queue_) :
    (t.run ops).pushed = (t.run ops).popped ++ (t.run ops).q.queue_ := by
  induction ops generalizing t with
  | nil => simpa [Trace.run] using h
  | cons op ops ih =>
    have := ih (t.step op) (step_pushed_eq t op h)
    simpa [Trace.run] using this

/-- C3: in every run of `push` and `pop` calls (and `stop` calls, if any) on a
queue that starts empty, the items handed out by the successful pops are a prefix
of the items whose push returned true, in the same order; what is missing from
the prefix is exactly what is still queued. -/
theorem fifo_prefix {α : Type} (C : Nat) (ops : List (Op α)) :
    ((Trace.start C).run ops).popped <+: ((Trace.start C).run ops).pushed ∧
    ((Trace.start C).run ops).pushed =
      ((Trace.start C).run ops).popped ++ ((Trace.start C).run ops).q.queue_ := by
  have h := run_pushed_eq ops (Trace.start C) (by simp [Trace.start, SafeQueue.new])
  exact ⟨⟨_, h.symm⟩, h⟩

theorem step_bounded {α : Type} (t : Trace α) (op : Op α) (C : Nat)
    (h : t.q.queue_.length ≤ C ∧ t.q.max_size_ = C) :
    (t.step op).q.queue_.length ≤ C ∧ (t.step op).q.max_size_ = C := by
  obtain ⟨⟨xs, M, s⟩, pu, po⟩ := t
  simp only at h
  obtain ⟨h1, rfl⟩ := h
  cases op with
  | push x =>
    by_cases hc : xs.length ≥ M
    · simp [Trace.step, SafeQueue.push, hc, h1]
    · simp [Trace.step, SafeQueue.push, hc]; omega
  | pop item =>
    cases xs with
    | nil =>
      cases s
      · simp [Trace.step, pop_nil_running]
      · simp [Trace.step, pop_nil_stopped]
    | cons y ys =>
      simp [Trace.step, pop_cons]
      simp at h1; omega
  | stop => simpa [Trace.step, SafeQueue.stop] using h1

theorem run_bounded {α : Type} (ops : List (Op α)) (t : Trace α) (C : Nat)
    (h : t.q.queue_.length ≤ C ∧ t.q.max_size_ = C) :
    (t.run ops).q.queue_.length ≤ C ∧ (t.run ops).q.max_size_ = C := by
  induction ops generalizing t with
  | nil => simpa [Trace.run] using h
  | cons op ops ih =>
    have := ih (t.step op) (step_bounded t op C h)
    simpa [Trace.run] using this

/-- C6: a queue constructed with capacity `C` holds at most `C` items and still
has capacity `C` after any finite run of `push`, `pop` and `stop` calls; for the
queues of the program as the constructor leaves them, the frame queue and the
face queue never hold more than 3 items and the log queue never more than 50. -/
theorem capacity_invariant {α : Type} (C : Nat) (ops : List (Op α))
    (opsFrame opsFace : List (Op Mat)) (opsLog : List (Op String)) :
    (((Trace.start C).run ops).q.queue_.length ≤ C ∧
      ((Trace.start C).run ops).q.max_size_ = C) ∧
    (Trace.run { q := DoorCore.init.frame_queue_, pushed := [], popped := [] }
        opsFrame).q.queue_.length ≤ 3 ∧
    (Trace.run { q := DoorCore.init.face_queue_, pushed := [], popped := [] }
        opsFace).q.queue_.length ≤ 3 ∧
    (Trace.run { q := DoorCore.init.g_log_queue, pushed := [], popped := [] }
        opsLog).q.queue_.length ≤ 50 := by
  refine ⟨run_bounded ops _ C (by simp [Trace.start, SafeQueue.new]), ?_, ?_, ?_⟩
  · exact (run_bounded opsFrame _ 3 (by
      simp [DoorCore.init, postLog, SafeQueue.new, FRAME_QUEUE_SIZE])).1
  · exact (run_bounded opsFace _ 3 (by
      simp [DoorCore.init, postLog, SafeQueue.new, FACE_QUEUE_SIZE])).1
  · exact (run_bounded opsLog _ 50 (by
      simp [DoorCore.init, postLog, SafeQueue.new, SafeQueue.push, LOG_QUEUE_SIZE])).1

/-! ### the recognition stage -/

theorem lt_threshold_iff (conf : Double) :
    conf.lt RECOGNIZE_THRESHOLD = true ↔
      conf = Double.negInf ∨ ∃ v : ℚ, conf = Double.finite v ∧ v < 50 := by
  cases conf <;> simp [Double.lt, RECOGNIZE_THRESHOLD]

theorem recognizeDecide_granted (d : DoorCore) (label : Int) (conf : Double)
    (h : label ≠ -1 ∧ conf.lt RECOGNIZE_THRESHOLD = true) :
    (recognizeDecide d label conf).calls = d.calls ++ [Call.openDoorDelay] ∧
    (recognizeDecide d label conf).g_recognize_success = true := by
  simp [recognizeDecide, h.1, h.2, postLog, DoorCore.call]

theorem recognizeDecide_denied (d : DoorCore) (label : Int) (conf : Double)
    (h : ¬ (label ≠ -1 ∧ conf.lt RECOGNIZE_THRESHOLD = true)) :
    (recognizeDecide d label conf).calls = d.calls ++ [Call.alarmBeep] ∧
    (recognizeDecide d label conf).g_recognize_success = false := by
  have hc : (label != -1 && conf.lt RECOGNIZE_THRESHOLD) = false := by
    by_cases hl : label = -1
    · simp [hl]
    · have : conf.lt RECOGNIZE_THRESHOLD = false := by
        cases hlt : conf.lt RECOGNIZE_THRESHOLD
        · rfl
        · exact absurd ⟨hl, hlt⟩ h
      simp [this]
  simp [recognizeDecide, hc, postLog, DoorCore.call]

/-- C7: with `RECOGNIZE_THRESHOLD = 50.0`, the recognition stage takes the
Granted branch (it publishes the verdict true) if and only if the label is not
-1 and the score is strictly below 50; a valid label with score exactly 50 is
Denied, a valid label with any finite score below 50 is Granted, and the label
-1 is Denied for every score. -/
theorem granted_iff_valid_and_below (d : DoorCore) (label : Int) (conf : Double) :
    RECOGNIZE_THRESHOLD = Double.finite 50 ∧
    ((recognizeDecide d label conf).g_recognize_success = true ↔
      label ≠ -1 ∧ (conf = Double.negInf ∨ ∃ v : ℚ, conf = Double.finite v ∧ v < 50)) ∧
    (recognizeDecide d label RECOGNIZE_THRESHOLD).g_recognize_success = false ∧
    (∀ v : ℚ, v < 50 → label ≠ -1 →
      (recognizeDecide d label (Double.finite v)).g_recognize_success = true) ∧
    (recognizeDecide d (-1) conf).g_recognize_success = false := by
  refine ⟨rfl, ?_, ?_, ?_, ?_⟩
  · rw [← lt_threshold_iff]
    by_cases h : label ≠ -1 ∧ conf.lt RECOGNIZE_THRESHOLD = true
    · simp [(recognizeDecide_granted d label conf h).2, h.1, h.2]
    · simp only [(recognizeDecide_denied d label conf h).2]
      simpa using h
  · exact (recognizeDecide_denied d label _ (by simp [Double.lt, RECOGNIZE_THRESHOLD])).2
  · intro v hv hl
    exact (recognizeDecide_granted d label _
      ⟨hl, (lt_threshold_iff _).2 (Or.inr ⟨v, rfl, hv⟩)⟩).2
  · exact (recognizeDecide_denied d (-1) conf (by simp)).2

/-- C8: a recognition cycle that receives a face region and gets `(label, conf)`
from the recognizer ends its pass having made exactly one actuator call: on
Granted the calls grow by one `openDoorDelay` and nothing else, and the published
verdict is true; on Denied they grow by one `alarmBeep` and nothing else, and the
published verdict is false. -/
theorem one_actuator_per_cycle (predict : Mat → Int × Double) (d : DoorCore)
    (face face1 : Mat) (rest : List Mat) (label : Int) (conf : Double)
    (hq : d.face_queue_.queue_ = face1 :: rest) (hp : predict face1 = (label, conf)) :
    ∃ d1, recognizeCycle predict d face = Pass.next (d1, face1) ∧
      (label ≠ -1 ∧ conf.lt RECOGNIZE_THRESHOLD = true →
        d1.calls = d.calls ++ [Call.openDoorDelay] ∧ d1.g_recognize_success = true) ∧
      (¬ (label ≠ -1 ∧ conf.lt RECOGNIZE_THRESHOLD = true) →
        d1.calls = d.calls ++ [Call.alarmBeep] ∧ d1.g_recognize_success = false) := by
  have hpop : d.face_queue_.pop face =
      PopResult.returned true face1 { d.face_queue_ with queue_ := rest } := by
    have := pop_cons face1 rest d.face_queue_.max_size_ d.face_queue_.stop_flag_ face
    rw [← hq] at this
    exact this
  refine ⟨recognizeDecide { d with face_queue_ := { d.face_queue_ with queue_ := rest } }
    label conf, ?_, ?_, ?_⟩
  · simp [recognizeCycle, hpop, hp]
  · intro h
    exact recognizeDecide_granted _ label conf h
  · intro h
    exact recognizeDecide_denied _ label conf h

/-- C8 at the two scenarios: label 7 with score 30.0 calls the door once and no
alarm; label -1 with score 10.0 calls the alarm once and no door. -/
theorem one_actuator_per_cycle_witness :
    (∃ d1, recognizeCycle (fun _ => (7, Double.finite 30)) sampleRunning Mat.default
        = Pass.next (d1, sampleFace) ∧
      d1.calls = [Call.openDoorDelay] ∧ d1.g_recognize_success = true) ∧
    (∃ d1, recognizeCycle (fun _ => (-1, Double.finite 10)) sampleRunning Mat.default
        = Pass.next (d1, sampleFace) ∧
      d1.calls = [Call.alarmBeep] ∧ d1.g_recognize_success = false) := by
  constructor
  · obtain ⟨d1, h1, h2, _⟩ := one_actuator_per_cycle (fun _ => (7, Double.finite 30))
      sampleRunning Mat.default sampleFace [] 7 (Double.finite 30) rfl rfl
    exact ⟨d1, h1, h2 ⟨by decide, by simp [Double.lt, RECOGNIZE_THRESHOLD]; norm_num⟩⟩
  · obtain ⟨d1, h1, _, h3⟩ := one_actuator_per_cycle (fun _ => (-1, Double.finite 10))
      sampleRunning Mat.default sampleFace [] (-1) (Double.finite 10) rfl rfl
    exact ⟨d1, h1, h3 (by simp)⟩

/-! ### the orchestrator -/

/-- C9, on the code: the destructor cancels the three queues before its first
join, but the user-cancellation exit of `startSystem`, taken from the running
system, makes its four joins with no `stop()` before them, and leaves the three
queues not stopped; the `stop()` calls of the destructor that runs afterwards in
`main` come after the joins. -/
theorem startSystemExit_joins_before_cancel :
    cancelsBeforeJoining DoorCore.init.startSystemSpawn.destructor.calls = true ∧
    DoorCore.init.startSystemSpawn.startSystemExit.calls =
      [Call.join ThreadId.cap_thread_, Call.join ThreadId.detect_thread_,
       Call.join ThreadId.rec_thread_, Call.join ThreadId.log_thread_,
       Call.destroyAllWindows] ∧
    cancelsBeforeJoining DoorCore.init.startSystemSpawn.startSystemExit.calls = false ∧
    DoorCore.init.startSystemSpawn.startSystemExit.frame_queue_.stop_flag_ = false ∧
    DoorCore.init.startSystemSpawn.startSystemExit.face_queue_.stop_flag_ = false ∧
    DoorCore.init.startSystemSpawn.startSystemExit.g_log_queue.stop_flag_ = false ∧
    cancelsBeforeJoining
      DoorCore.init.startSystemSpawn.startSystemExit.destructor.calls = false := by
  refine ⟨by decide, by decide, by decide, rfl, rfl, rfl, by decide⟩

/-- C10, on the code: a pass of the render loop that finds the frame queue empty
and not stopped stays inside `pop`: it shows nothing, does not reach `waitKey`,
and does not end, whatever the key and the last displayed frame. -/
theorem renderIteration_waits_on_empty (key : Int) (d : DoorCore) (latest_frame : Mat)
    (hempty : d.frame_queue_.queue_ = []) (hrun : d.frame_queue_.stop_flag_ = false) :
    renderIteration key d latest_frame = Pass.waiting := by
  have hpop : d.frame_queue_.pop latest_frame = PopResult.waiting := by
    have := pop_nil_running d.frame_queue_.max_size_ latest_frame
    rw [← hempty, ← hrun] at this
    exact this
  simp [renderIteration, hpop]

/-- C10 at the state in which `startSystem` enters its render loop: the capture
thread has not produced a frame yet, and the first pass waits, also when the key
is ESC. -/
theorem renderIteration_waits_on_empty_witness :
    DoorCore.init.startSystemSpawn.frame_queue_.queue_ = [] ∧
    DoorCore.init.startSystemSpawn.frame_queue_.stop_flag_ = false ∧
    renderIteration 27 DoorCore.init.startSystemSpawn Mat.default = Pass.waiting :=
  ⟨rfl, rfl, renderIteration_waits_on_empty 27 DoorCore.init.startSystemSpawn Mat.default rfl rfl⟩

/-! ### the stop flag -/

theorem step_keeps_stop {α : Type} (t : Trace α) (op : Op α)
    (h : t.q.stop_flag_ = true) : (t.step op).q.stop_flag_ = true := by
  obtain ⟨⟨xs, M, s⟩, pu, po⟩ := t
  simp only at h
  subst h
  cases op with
  | push x =>
    by_cases hc : xs.length ≥ M
    · simp [Trace.step, SafeQueue.push, hc]
    · simp [Trace.step, SafeQueue.push, hc]
  | pop item =>
    cases xs with
    | nil => simp [Trace.step, pop_nil_stopped]
    | cons y ys => simp [Trace.step, pop_cons]
  | stop => simp [Trace.step, SafeQueue.stop]

theorem run_keeps_stop {α : Type} (ops : List (Op α)) (t : Trace α)
    (h : t.q.stop_flag_ = true) : (t.run ops).q.stop_flag_ = true := by
  induction ops generalizing t with
  | nil => simpa [Trace.run] using h
  | cons op ops ih =>
    have := ih (t.step op) (step_keeps_stop t op h)
    simpa [Trace.run] using this

/-- C11: cancellation is an idempotent one-way latch. For every queue state `q`,
`stop(stop(q)) = stop(q)`; `stop` sets the flag and changes neither the queued
items nor the capacity; and after `stop` the flag is still set at the end of every
further run of `push`, `pop` and `stop` calls. -/
theorem stop_idempotent_latch {α : Type} (q : SafeQueue α) (ops : List (Op α)) :
    q.stop.stop = q.stop ∧
    q.stop.stop_flag_ = true ∧
    q.stop.queue_ = q.queue_ ∧
    q.stop.max_size_ = q.max_size_ ∧
    (Trace.run { q := q.stop, pushed := [], popped := [] } ops).q.stop_flag_ = true := by
  refine ⟨rfl, rfl, rfl, rfl, ?_⟩
  exact run_keeps_stop ops _ rfl

/-! ### what a stage cycle does to the overlay state -/

theorem recognizeDecide_shared (d : DoorCore) (label : Int) (conf : Double) :
    ∃ b, (recognizeDecide d label conf).shared = d.shared.store (Store.recognize_success b) := by
  unfold recognizeDecide
  split
  · exact ⟨true, rfl⟩
  · exact ⟨false, rfl⟩

theorem detectCycle_shared (det : Detector) (d : DoorCore) (frame : Mat) (d1 : DoorCore)
    (frame1 : Mat) (h : detectCycle det d frame = Pass.next (d1, frame1)) :
    d1.shared = d.shared ∨ ∃ r, d1.shared = d.shared.store (Store.face_rect r) := by
  unfold detectCycle at h
  split at h
  · exact absurd h (by simp)
  · simp only [Pass.next.injEq, Prod.mk.injEq] at h
    obtain ⟨rfl, _⟩ := h
    exact Or.inl rfl
  · simp only at h
    split at h
    · simp only [Pass.next.injEq, Prod.mk.injEq] at h
      obtain ⟨rfl, _⟩ := h
      exact Or.inr ⟨_, rfl⟩
    · simp only [Pass.next.injEq, Prod.mk.injEq] at h
      obtain ⟨rfl, _⟩ := h
      exact Or.inr ⟨_, rfl⟩

theorem recognizeCycle_shared (predict : Mat → Int × Double) (d : DoorCore) (face : Mat)
    (d1 : DoorCore) (face1 : Mat) (h : recognizeCycle predict d face = Pass.next (d1, face1)) :
    d1.shared = d.shared ∨ ∃ b, d1.shared = d.shared.store (Store.recognize_success b) := by
  unfold recognizeCycle at h
  split at h
  · exact absurd h (by simp)
  · simp only [Pass.next.injEq, Prod.mk.injEq] at h
    obtain ⟨rfl, _⟩ := h
    exact Or.inl rfl
  · simp only [Pass.next.injEq, Prod.mk.injEq] at h
    obtain ⟨rfl, _⟩ := h
    exact Or.inr (recognizeDecide_shared _ _ _)

/-! ### the overlay state -/

theorem stores_append (s : Shared) (ws vs : List Store) :
    s.stores (ws ++ vs) = (s.stores ws).stores vs := by
  simp [Shared.stores, List.foldl_append]

theorem stores_face_rect (ws : List Store) (s : Shared) :
    (s.stores ws).g_face_rect = latestRect s.g_face_rect ws := by
  induction ws using List.reverseRecOn with
  | nil => simp [Shared.stores, latestRect]
  | append_singleton ws w ih =>
    rw [stores_append]
    cases w with
    | face_rect r =>
      simp [Shared.stores, Shared.store, latestRect, List.filterMap_append]
    | recognize_success b =>
      simpa [Shared.stores, Shared.store, latestRect, List.filterMap_append] using ih

theorem stores_recognize_success (ws : List Store) (s : Shared) :
    (s.stores ws).g_recognize_success = latestSuccess s.g_recognize_success ws := by
  induction ws using List.reverseRecOn with
  | nil => simp [Shared.stores, latestSuccess]
  | append_singleton ws w ih =>
    rw [stores_append]
    cases w with
    | face_rect r =>
      simpa [Shared.stores, Shared.store, latestSuccess, List.filterMap_append] using ih
    | recognize_success b =>
      simp [Shared.stores, Shared.store, latestSuccess, List.filterMap_append]

/-- C12, as stated, fails on the code. The overlay state is `rectA` with verdict
false when a render pass loads the region; before the pass loads the verdict the
detection stage stores `rectB` and the recognition stage stores true. The pass
reads the pair `(rectA, true)`, which the overlay state never held: its region is
from before the two stores and its verdict from after them. The store of `rectB`
replaced the region only and kept the verdict it found. -/
theorem overlay_pair_mixes_writes :
    renderLoads { g_face_rect := rectA, g_recognize_success := false }
        [Store.face_rect rectB, Store.recognize_success true] []
      = (rectA, some (true, true)) ∧
    pairsHeld { g_face_rect := rectA, g_recognize_success := false }
        [Store.face_rect rectB, Store.recognize_success true]
      = [(rectA, false), (rectB, false), (rectB, true)] ∧
    (rectA, true) ∉ pairsHeld { g_face_rect := rectA, g_recognize_success := false }
        [Store.face_rect rectB, Store.recognize_success true] ∧
    Shared.store { g_face_rect := rectA, g_recognize_success := false }
        (Store.face_rect rectB)
      = { g_face_rect := rectB, g_recognize_success := false } := by
  refine ⟨by decide, by decide, by decide, by decide⟩

/-- C12, amended: a detection cycle stores at most `g_face_rect` and a recognition
cycle at most `g_recognize_success`; each store replaces one of the two atomics
and keeps the other;
in every order of completed stores and render loads, the load of `g_face_rect`
returns the value of the latest completed store to `g_face_rect` (or the initial
value), and each load of `g_recognize_success`, made only when the loaded
rectangle is not empty, returns the value of the latest completed store to
`g_recognize_success` (or the initial value). -/
theorem overlay_loads_latest_stores (s0 : Shared) (before mid1 mid2 : List Store) :
    (∀ det d frame d1 frame1, detectCycle det d frame = Pass.next (d1, frame1) →
      d1.shared = d.shared ∨ ∃ r, d1.shared = d.shared.store (Store.face_rect r)) ∧
    (∀ predict d face d1 face1, recognizeCycle predict d face = Pass.next (d1, face1) →
      d1.shared = d.shared ∨ ∃ b, d1.shared = d.shared.store (Store.recognize_success b)) ∧
    (∀ r, s0.store (Store.face_rect r)
      = { g_face_rect := r, g_recognize_success := s0.g_recognize_success }) ∧
    (∀ b, s0.store (Store.recognize_success b)
      = { g_face_rect := s0.g_face_rect, g_recognize_success := b }) ∧
    renderLoads (s0.stores before) mid1 mid2 =
      if !(latestRect s0.g_face_rect before).empty then
        (latestRect s0.g_face_rect before,
          some (latestSuccess s0.g_recognize_success (before ++ mid1),
            latestSuccess s0.g_recognize_success (before ++ mid1 ++ mid2)))
      else (latestRect s0.g_face_rect before, none) := by
  refine ⟨fun det d frame d1 frame1 h => detectCycle_shared det d frame d1 frame1 h,
    fun predict d face d1 face1 h => recognizeCycle_shared predict d face d1 face1 h,
    fun _ => rfl, fun _ => rfl, ?_⟩
  unfold renderLoads
  simp only [← stores_face_rect, ← stores_recognize_success, stores_append]

/-! ### the stage loops on a cancelled, empty queue -/

theorem mainScript_is_exit_then_destructor (d : DoorCore) :
    mainScript.foldl DoorCore.mainStep d = d.startSystemExit.destructor := rfl

theorem detectCycle_received (det : Detector) (d : DoorCore) (frame frame1 : Mat)
    (rest : List Mat) (hq : d.frame_queue_.queue_ = frame1 :: rest) :
    detectCycle det d frame =
      if !(det.detectMultiScale (det.toGray frame1)).isEmpty then
        Pass.next
          ({ d with
              frame_queue_ := { d.frame_queue_ with queue_ := rest }
              face_queue_ := (d.face_queue_.push (det.roi (det.toGray frame1)
                ((det.detectMultiScale (det.toGray frame1)).getD 0 Rect.default))).2
              g_face_rect := (det.detectMultiScale (det.toGray frame1)).getD 0 Rect.default },
            frame1)
      else
        Pass.next
          ({ d with
              frame_queue_ := { d.frame_queue_ with queue_ := rest }
              g_face_rect := Rect.default }, frame1) := by
  have hpop : d.frame_queue_.pop frame =
      PopResult.returned true frame1 { d.frame_queue_ with queue_ := rest } := by
    have := pop_cons frame1 rest d.frame_queue_.max_size_ d.frame_queue_.stop_flag_ frame
    rw [← hq] at this
    exact this
  simp only [detectCycle, hpop]

/-- C14: a detection cycle that receives a frame and gets the list `faces` from
the detector ends its pass with the following. If `faces` is `r :: tail`, the
published region is `r`, and the face queue is what one `push` of the crop of the
grey frame at `r` leaves: unchanged when it was full (the crop is dropped), the
crop appended otherwise; the region is `r` in both cases. If `faces` is empty,
the published region is `Rect()`, an empty rectangle, and the face queue is
untouched. -/
theorem detect_publishes_first_candidate (det : Detector) (d : DoorCore)
    (frame frame1 : Mat) (rest : List Mat) (faces : List Rect)
    (hq : d.frame_queue_.queue_ = frame1 :: rest)
    (hdet : det.detectMultiScale (det.toGray frame1) = faces) :
    ∃ d1, detectCycle det d frame = Pass.next (d1, frame1) ∧
      (∀ r tail, faces = r :: tail →
        d1.g_face_rect = r ∧
        d1.face_queue_ = (d.face_queue_.push (det.roi (det.toGray frame1) r)).2 ∧
        (d.face_queue_.queue_.length ≥ d.face_queue_.max_size_ →
          d1.face_queue_ = d.face_queue_) ∧
        (d.face_queue_.queue_.length < d.face_queue_.max_size_ →
          d1.face_queue_.queue_ = d.face_queue_.queue_ ++ [det.roi (det.toGray frame1) r])) ∧
      (faces = [] →
        d1.g_face_rect = Rect.default ∧ Rect.default.empty = true ∧
        d1.face_queue_ = d.face_queue_) := by
  have hc := detectCycle_received det d frame frame1 rest hq
  rw [hdet] at hc
  cases faces with
  | nil =>
    refine ⟨_, hc, ?_, ?_⟩
    · intro r tail h
      exact absurd h (by simp)
    · intro _
      exact ⟨rfl, by decide, rfl⟩
  | cons r0 tail0 =>
    refine ⟨_, hc, ?_, ?_⟩
    · intro r tail h
      obtain ⟨rfl, rfl⟩ := List.cons.inj h
      refine ⟨rfl, rfl, ?_, ?_⟩
      · intro hfull
        simp [SafeQueue.push, hfull]
      · intro hroom
        have : ¬ d.face_queue_.queue_.length ≥ d.face_queue_.max_size_ := by omega
        simp [SafeQueue.push, this]
    · intro h
      exact absurd h (by simp)

/-- C14 at the running system with one frame queued and a detector that returns
`[rectA, rectB]`: the pass publishes `rectA`, and the face queue holds the crop at
`rectA` and nothing else. -/
theorem detect_publishes_first_candidate_witness :
    ∃ d1, detectCycle sampleDetector sampleWithFrame Mat.default
        = Pass.next (d1, sampleFrame) ∧
      d1.g_face_rect = rectA ∧
      d1.face_queue_.queue_ = [sampleDetector.roi sampleFrame rectA] := by
  obtain ⟨d1, h1, h2, _⟩ := detect_publishes_first_candidate sampleDetector sampleWithFrame
    Mat.default sampleFrame [] [rectA, rectB] rfl rfl
  exact ⟨d1, h1, (h2 rectA [rectB] rfl).1, by rw [(h2 rectA [rectB] rfl).2.1]; rfl⟩

theorem sample_detect_pass :
    ∃ d1, detectCycle sampleDetector sampleWithFrame Mat.default
        = Pass.next (d1, sampleFrame) := by
  have hc := detectCycle_received sampleDetector sampleWithFrame Mat.default sampleFrame []
    rfl
  exact ⟨_, hc.trans (if_pos (by decide))⟩

theorem sample_recognize_pass :
    ∃ e1, recognizeCycle (fun _ => (7, Double.finite 30)) sampleRunning Mat.default
        = Pass.next (e1, sampleFace) := by
  have hpop : sampleRunning.face_queue_.pop Mat.default =
      PopResult.returned true sampleFace
        { sampleRunning.face_queue_ with queue_ := [] } := by
    exact pop_cons sampleFace [] 3 false Mat.default
  exact ⟨_, by simp only [recognizeCycle, hpop]; rfl⟩

/-! ### the fields a cycle leaves alone -/

/-- C15: a detection cycle leaves the verdict `g_recognize_success` equal to its
value before the cycle, and a recognition cycle leaves the region `g_face_rect`
equal to its value before the cycle; neither cycle leaves its loop body by
`break`. -/
theorem cycles_keep_other_field (det : Detector) (predict : Mat → Int × Double)
    (d d1 e e1 : DoorCore) (frame frame1 face face1 : Mat)
    (hd : detectCycle det d frame = Pass.next (d1, frame1))
    (hr : recognizeCycle predict e face = Pass.next (e1, face1)) :
    d1.g_recognize_success = d.g_recognize_success ∧
    e1.g_face_rect = e.g_face_rect ∧
    (∀ s, detectCycle det d frame ≠ Pass.exit s) ∧
    (∀ s, recognizeCycle predict e face ≠ Pass.exit s) := by
  refine ⟨?_, ?_, ?_, ?_⟩
  · rcases detectCycle_shared det d frame d1 frame1 hd with h | ⟨r, h⟩
    · exact congrArg Shared.g_recognize_success h
    · exact congrArg Shared.g_recognize_success h
  · rcases recognizeCycle_shared predict e face e1 face1 hr with h | ⟨b, h⟩
    · exact congrArg Shared.g_face_rect h
    · exact congrArg Shared.g_face_rect h
  · intro s hs
    rw [hd] at hs
    exact absurd hs (by simp)
  · intro s hs
    rw [hr] at hs
    exact absurd hs (by simp)

/-- C15 at a detection cycle that finds `rectA` while the verdict is false, and at
a recognition cycle that grants while the region is `Rect()`: the first publishes
`rectA` and keeps the verdict false, the second publishes true and keeps the
region. -/
theorem cycles_keep_other_field_witness :
    ∃ d1 e1,
      detectCycle sampleDetector sampleWithFrame Mat.default = Pass.next (d1, sampleFrame) ∧
      recognizeCycle (fun _ => (7, Double.finite 30)) sampleRunning Mat.default
        = Pass.next (e1, sampleFace) ∧
      d1.g_recognize_success = false ∧ e1.g_face_rect = Rect.default := by
  obtain ⟨d1, hd⟩ := sample_detect_pass
  obtain ⟨e1, he⟩ := sample_recognize_pass
  have h := cycles_keep_other_field sampleDetector (fun _ => (7, Double.finite 30))
    sampleWithFrame d1 sampleRunning e1 Mat.default sampleFrame Mat.default sampleFace hd he
  exact ⟨d1, e1, hd, he, h.1, h.2.1⟩

end FaceDoor
